import Mathlib

/-! Reset Control Module HAL (`fsl_rcm_hal.h`).

A shallow embedding of the inline accessors of the RCM hardware abstraction
layer.  The register block is a store from addresses to register values; every
accessor takes the base address explicitly, as in the C source.  Setters return
the new store, getters return their result together with the (unchanged) store.
-/

namespace RCM

/-! ## Enumerations -/

/-- System reset source names (`rcm_source_names_t`), all enumerators that can
appear in the declaration, feature-gated ones included. -/
inductive rcm_source_names_t where
  | kRcmWakeup
  | kRcmLowVoltDetect
  | kRcmLossOfClk
  | kRcmLossOfLock
  | kRcmWatchDog
  | kRcmExternalPin
  | kRcmPowerOn
  | kRcmJtag
  | kRcmCoreLockup
  | kRcmSoftware
  | kRcmMdmAp
  | kRcmEzport
  | kRcmStopModeAckErr
  | kRcmSrcNameMax
  deriving DecidableEq, Repr

/-- The compile-time feature flags that gate enumerators of
`rcm_source_names_t`. -/
structure rcm_features where
  FSL_FEATURE_RCM_HAS_LOC : Bool
  FSL_FEATURE_RCM_HAS_LOL : Bool
  FSL_FEATURE_RCM_HAS_JTAG : Bool
  FSL_FEATURE_RCM_HAS_EZPORT : Bool
  deriving DecidableEq, Repr

/-- The reset causes declared by `rcm_source_names_t` under a feature
configuration, in declaration order (every enumerator before
`kRcmSrcNameMax`). -/
def rcm_sources (f : rcm_features) : List rcm_source_names_t :=
  [.kRcmWakeup, .kRcmLowVoltDetect]
    ++ (if f.FSL_FEATURE_RCM_HAS_LOC then [.kRcmLossOfClk] else [])
    ++ (if f.FSL_FEATURE_RCM_HAS_LOL then [.kRcmLossOfLock] else [])
    ++ [.kRcmWatchDog, .kRcmExternalPin, .kRcmPowerOn]
    ++ (if f.FSL_FEATURE_RCM_HAS_JTAG then [.kRcmJtag] else [])
    ++ [.kRcmCoreLockup, .kRcmSoftware, .kRcmMdmAp]
    ++ (if f.FSL_FEATURE_RCM_HAS_EZPORT then [.kRcmEzport] else [])
    ++ [.kRcmStopModeAckErr]

/-- The full enumerator list of `rcm_source_names_t` after preprocessing: the
causes followed by `kRcmSrcNameMax`. -/
def rcm_source_names_decl (f : rcm_features) : List rcm_source_names_t :=
  rcm_sources f ++ [rcm_source_names_t.kRcmSrcNameMax]

/-- C numbering of enumerators without initialisers: the first one gets the
start value and every following one gets the previous value plus one. -/
def enumValues {α : Type} : List α → Nat → List (α × Nat)
  | [], _ => []
  | x :: xs, n => (x, n) :: enumValues xs (n + 1)

/-- The integer value of an enumerator of `rcm_source_names_t` under a feature
configuration; `none` when the enumerator is compiled out. -/
def rcm_source_value (f : rcm_features) (c : rcm_source_names_t) : Option Nat :=
  ((enumValues (rcm_source_names_decl f) 0).find? (fun p => decide (p.1 = c))).map Prod.snd

/-- Reset pin filter select in Run and Wait modes. -/
inductive rcm_filter_run_wait_modes_t where
  | kRcmFilterDisabled
  | kRcmFilterBusClk
  | kRcmFilterLpoClk
  | kRcmFilterReserverd
  deriving DecidableEq, Repr

/-- Integer value of a `rcm_filter_run_wait_modes_t` enumerator. -/
def rcm_filter_run_wait_modes_t.val : rcm_filter_run_wait_modes_t → Nat
  | kRcmFilterDisabled => 0
  | kRcmFilterBusClk => 1
  | kRcmFilterLpoClk => 2
  | kRcmFilterReserverd => 3

/-- Boot from ROM configuration. -/
inductive rcm_boot_rom_config_t where
  | kRcmBootFlash
  | kRcmBootRomCfg0
  | kRcmBootRomFopt
  | kRcmBootRomBoth
  deriving DecidableEq, Repr

/-- Integer value of a `rcm_boot_rom_config_t` enumerator. -/
def rcm_boot_rom_config_t.val : rcm_boot_rom_config_t → Nat
  | kRcmBootFlash => 0
  | kRcmBootRomCfg0 => 1
  | kRcmBootRomFopt => 2
  | kRcmBootRomBoth => 3

/-! ## Register block and bit-field access -/

/-- The register store: the value held at every address. -/
abbrev Mem := Nat → Nat

/-- Modelled from the spec: the device-description header
(`fsl_device_registers.h`) is not among the sources; a bit field is described
by the offset of its register from the base address, its bit position and its
bit width. -/
structure rcm_field where
  offset : Nat
  shift : Nat
  width : Nat
  deriving DecidableEq, Repr

/-- Modelled from the spec: the device-description header is not among the
sources; the register layout of a chip variant is an external input: the width
of a register in bits and the descriptor of every field the accessors name. -/
structure rcm_layout where
  regBits : Nat
  RPFC_RSTFLTSS : rcm_field
  RPFC_RSTFLTSRW : rcm_field
  RPFW_RSTFLTSEL : rcm_field
  MR_EZP_MS : rcm_field
  FM_FORCEROM : rcm_field
  MR_BOOTROM : rcm_field
  SSRS : rcm_source_names_t → rcm_field

/-- Address of a register: base address plus offset in `uint32_t` arithmetic. -/
def HW_ADDR (baseAddr offset : Nat) : Nat := (baseAddr + offset) % 2 ^ 32

/-- Modelled from the spec: the register read macro is not among the sources;
a direct load of the register that holds the field. -/
def HW_RD (L : rcm_layout) (s : Mem) (baseAddr : Nat) (f : rcm_field) : Nat :=
  s (HW_ADDR baseAddr f.offset) % 2 ^ L.regBits

/-- Modelled from the spec: the register write macro is not among the sources;
a direct store to the register that holds the field, narrowed to the register
width. -/
def HW_WR (L : rcm_layout) (s : Mem) (baseAddr : Nat) (f : rcm_field) (v : Nat) : Mem :=
  fun a => if a = HW_ADDR baseAddr f.offset then v % 2 ^ L.regBits else s a

/-- Bit mask of a field within its register. -/
def BM (f : rcm_field) : Nat := (2 ^ f.width - 1) <<< f.shift

/-- A value formatted for a field: narrowed to the register width, shifted to
the field position and masked. -/
def BF (L : rcm_layout) (f : rcm_field) (v : Nat) : Nat :=
  (((v % 2 ^ L.regBits) <<< f.shift) % 2 ^ L.regBits) &&& BM f

/-- Modelled from the spec: the `BW_RCM_*` field-write macros are not among the
sources; a read-modify-write of the register: the bits of the field are
replaced by the formatted value and all other bits are kept. -/
def BW (L : rcm_layout) (s : Mem) (baseAddr : Nat) (f : rcm_field) (v : Nat) : Mem :=
  HW_WR L s baseAddr f
    ((HW_RD L s baseAddr f &&& ((2 ^ L.regBits - 1) ^^^ (BM f % 2 ^ L.regBits))) ||| BF L f v)

/-- Modelled from the spec: the `BR_RCM_*` field-read macros are not among the
sources; the register is loaded, masked and shifted down. -/
def BR (L : rcm_layout) (s : Mem) (baseAddr : Nat) (f : rcm_field) : Nat :=
  (HW_RD L s baseAddr f &&& BM f) >>> f.shift

/-! ## The accessors of `fsl_rcm_hal.h` -/

/-- Sets the reset pin filter in stop mode. -/
def RCM_HAL_SetFilterStopModeCmd (L : rcm_layout) (baseAddr : Nat) (enable : Bool)
    (s : Mem) : Mem :=
  BW L s baseAddr L.RPFC_RSTFLTSS (if enable then 1 else 0)

/-- Gets the reset pin filter in stop mode. -/
def RCM_HAL_GetFilterStopModeCmd (L : rcm_layout) (baseAddr : Nat) (s : Mem) : Bool × Mem :=
  (decide (BR L s baseAddr L.RPFC_RSTFLTSS ≠ 0), s)

/-- Sets the reset pin filter in run and wait mode. -/
def RCM_HAL_SetFilterRunWaitMode (L : rcm_layout) (baseAddr : Nat)
    (mode : rcm_filter_run_wait_modes_t) (s : Mem) : Mem :=
  BW L s baseAddr L.RPFC_RSTFLTSRW mode.val

/-- Gets the reset pin filter in run and wait mode; the result is the integer
value of the returned `rcm_filter_run_wait_modes_t`. -/
def RCM_HAL_GetFilterRunWaitMode (L : rcm_layout) (baseAddr : Nat) (s : Mem) : Nat × Mem :=
  (BR L s baseAddr L.RPFC_RSTFLTSRW, s)

/-- Sets the reset pin filter width; `width` is a `uint32_t`. -/
def RCM_HAL_SetFilterWidth (L : rcm_layout) (baseAddr : Nat) (width : Nat) (s : Mem) : Mem :=
  BW L s baseAddr L.RPFW_RSTFLTSEL (width % 2 ^ 32)

/-- Gets the reset pin filter width, as a `uint32_t`. -/
def RCM_HAL_GetFilterWidth (L : rcm_layout) (baseAddr : Nat) (s : Mem) : Nat × Mem :=
  (BR L s baseAddr L.RPFW_RSTFLTSEL % 2 ^ 32, s)

/-- Gets the EZP_MS_B pin assert status. -/
def RCM_HAL_GetEasyPortModeStatusCmd (L : rcm_layout) (baseAddr : Nat) (s : Mem) : Bool × Mem :=
  (decide (BR L s baseAddr L.MR_EZP_MS ≠ 0), s)

/-- Forces the boot from ROM during all subsequent system resets. -/
def RCM_HAL_SetForceBootRomSrc (L : rcm_layout) (baseAddr : Nat)
    (config : rcm_boot_rom_config_t) (s : Mem) : Mem :=
  BW L s baseAddr L.FM_FORCEROM config.val

/-- Gets the force ROM boot setting; the result is the integer value of the
returned `rcm_boot_rom_config_t`. -/
def RCM_HAL_GetForceBootRomSrc (L : rcm_layout) (baseAddr : Nat) (s : Mem) : Nat × Mem :=
  (BR L s baseAddr L.FM_FORCEROM, s)

/-- Gets the ROM boot source during the last chip reset; the result is the
integer value of the returned `rcm_boot_rom_config_t`. -/
def RCM_HAL_GetBootRomSrc (L : rcm_layout) (baseAddr : Nat) (s : Mem) : Nat × Mem :=
  (BR L s baseAddr L.MR_BOOTROM, s)

/-- Clears the ROM boot source flag: writes `kRcmBootRomBoth` to the field. -/
def RCM_HAL_ClearBootRomSrc (L : rcm_layout) (baseAddr : Nat) (s : Mem) : Mem :=
  BW L s baseAddr L.MR_BOOTROM rcm_boot_rom_config_t.kRcmBootRomBoth.val

/-- Modelled from the spec: the body of `RCM_HAL_GetStickySrcStatusCmd` is in
`fsl_rcm_hal.c`, which is not among the sources; every cause has one bit field
in a latch register and the query reads it. -/
def RCM_HAL_GetStickySrcStatusCmd (L : rcm_layout) (baseAddr : Nat)
    (srcName : rcm_source_names_t) (s : Mem) : Bool × Mem :=
  (decide (BR L s baseAddr (L.SSRS srcName) ≠ 0), s)

/-- Modelled from the spec: the body of `RCM_HAL_ClearStickySrcStatus` is in
`fsl_rcm_hal.c`, which is not among the sources; the call clears the sticky
latch bit of every cause of the target. -/
def RCM_HAL_ClearStickySrcStatus (L : rcm_layout) (f : rcm_features) (baseAddr : Nat)
    (s : Mem) : Mem :=
  (rcm_sources f).foldl (fun m c => BW L m baseAddr (L.SSRS c) 0) s

/-! ## Conditions on the register layout -/

/-- A field lies inside its register. -/
def rcm_field.fits (L : rcm_layout) (f : rcm_field) : Prop :=
  f.shift + f.width ≤ L.regBits

instance (L : rcm_layout) (f : rcm_field) : Decidable (f.fits L) := by
  unfold rcm_field.fits; infer_instance

/-- Two fields do not overlap: they live in different registers, or in
disjoint bit ranges of one register. -/
def rcm_field.disjoint (f g : rcm_field) : Prop :=
  (f.offset < 2 ^ 32 ∧ g.offset < 2 ^ 32 ∧ f.offset ≠ g.offset)
    ∨ f.shift + f.width ≤ g.shift ∨ g.shift + g.width ≤ f.shift

instance (f g : rcm_field) : Decidable (f.disjoint g) := by
  unfold rcm_field.disjoint; infer_instance

/-- The three reset-pin filter fields occupy disjoint bits. -/
def rcm_layout.filterSeparate (L : rcm_layout) : Prop :=
  L.RPFC_RSTFLTSS.disjoint L.RPFC_RSTFLTSRW ∧ L.RPFC_RSTFLTSS.disjoint L.RPFW_RSTFLTSEL
    ∧ L.RPFC_RSTFLTSRW.disjoint L.RPFW_RSTFLTSEL

instance (L : rcm_layout) : Decidable L.filterSeparate := by
  unfold rcm_layout.filterSeparate; infer_instance

/-- The two boot-source fields occupy bits disjoint from each other and from
the three reset-pin filter fields. -/
def rcm_layout.bootSeparate (L : rcm_layout) : Prop :=
  L.FM_FORCEROM.disjoint L.MR_BOOTROM
    ∧ L.FM_FORCEROM.disjoint L.RPFC_RSTFLTSS ∧ L.FM_FORCEROM.disjoint L.RPFC_RSTFLTSRW
    ∧ L.FM_FORCEROM.disjoint L.RPFW_RSTFLTSEL
    ∧ L.MR_BOOTROM.disjoint L.RPFC_RSTFLTSS ∧ L.MR_BOOTROM.disjoint L.RPFC_RSTFLTSRW
    ∧ L.MR_BOOTROM.disjoint L.RPFW_RSTFLTSEL

instance (L : rcm_layout) : Decidable L.bootSeparate := by
  unfold rcm_layout.bootSeparate; infer_instance

/-- A concrete layout with 8-bit registers, used to instantiate the results. -/
def sampleLayout : rcm_layout where
  regBits := 8
  RPFC_RSTFLTSRW := ⟨4, 0, 2⟩
  RPFC_RSTFLTSS := ⟨4, 2, 1⟩
  RPFW_RSTFLTSEL := ⟨5, 0, 5⟩
  FM_FORCEROM := ⟨6, 1, 2⟩
  MR_EZP_MS := ⟨7, 0, 1⟩
  MR_BOOTROM := ⟨7, 1, 2⟩
  SSRS := fun c =>
    match c with
    | .kRcmWakeup => ⟨8, 0, 1⟩
    | .kRcmLowVoltDetect => ⟨8, 1, 1⟩
    | .kRcmLossOfClk => ⟨8, 2, 1⟩
    | .kRcmLossOfLock => ⟨8, 3, 1⟩
    | .kRcmWatchDog => ⟨8, 5, 1⟩
    | .kRcmExternalPin => ⟨8, 6, 1⟩
    | .kRcmPowerOn => ⟨8, 7, 1⟩
    | .kRcmJtag => ⟨9, 0, 1⟩
    | .kRcmCoreLockup => ⟨9, 1, 1⟩
    | .kRcmSoftware => ⟨9, 2, 1⟩
    | .kRcmMdmAp => ⟨9, 3, 1⟩
    | .kRcmEzport => ⟨9, 4, 1⟩
    | .kRcmStopModeAckErr => ⟨9, 5, 1⟩
    | .kRcmSrcNameMax => ⟨9, 7, 1⟩

/-- A register store in which every sticky latch bit and every field bit is
set. -/
def sampleMem : Mem := fun _ => 255

/-- The feature configuration with every gated reset cause enabled. -/
def allFeatures : rcm_features := ⟨true, true, true, true⟩

/-! ## Bit-level facts about field access -/

theorem testBit_BM (f : rcm_field) (j : Nat) :
    (BM f).testBit j = (decide (f.shift ≤ j) && decide (j - f.shift < f.width)) := by
  simp [BM, Nat.testBit_shiftLeft, Nat.testBit_two_pow_sub_one]

theorem testBit_insert (L : rcm_layout) (f : rcm_field) (r v j : Nat) :
    (((r % 2 ^ L.regBits &&& ((2 ^ L.regBits - 1) ^^^ (BM f % 2 ^ L.regBits))) ||| BF L f v)
        % 2 ^ L.regBits).testBit j
      = (decide (j < L.regBits) &&
          (if f.shift ≤ j ∧ j - f.shift < f.width then v.testBit (j - f.shift)
            else r.testBit j)) := by
  simp only [BF, Nat.testBit_mod_two_pow, Nat.testBit_or, Nat.testBit_and, Nat.testBit_xor,
    Nat.testBit_two_pow_sub_one, Nat.testBit_shiftLeft, testBit_BM]
  by_cases h1 : j < L.regBits <;> by_cases h2 : f.shift ≤ j <;>
    by_cases h3 : j - f.shift < f.width <;> simp [h1, h2, h3]
  intro _; omega

theorem HW_RD_BW (L : rcm_layout) (s : Mem) (baseAddr : Nat) (f g : rcm_field) (v : Nat) :
    HW_RD L (BW L s baseAddr f v) baseAddr g
      = if HW_ADDR baseAddr g.offset = HW_ADDR baseAddr f.offset then
          ((s (HW_ADDR baseAddr f.offset) % 2 ^ L.regBits
              &&& ((2 ^ L.regBits - 1) ^^^ (BM f % 2 ^ L.regBits))) ||| BF L f v) % 2 ^ L.regBits
        else HW_RD L s baseAddr g := by
  unfold BW HW_WR HW_RD
  by_cases h : HW_ADDR baseAddr g.offset = HW_ADDR baseAddr f.offset
  · simp [h]
  · simp [h]

theorem testBit_BR (L : rcm_layout) (s : Mem) (baseAddr : Nat) (g : rcm_field) (i : Nat) :
    (BR L s baseAddr g).testBit i
      = ((HW_RD L s baseAddr g).testBit (g.shift + i) && decide (i < g.width)) := by
  simp [BR, Nat.testBit_shiftRight, Nat.testBit_and, testBit_BM]

/-- Reading a field back after writing it gives the written value narrowed to
the field width, when the field lies inside its register. -/
theorem BR_BW_same (L : rcm_layout) (s : Mem) (baseAddr : Nat) (f : rcm_field) (v : Nat)
    (h : f.shift + f.width ≤ L.regBits) :
    BR L (BW L s baseAddr f v) baseAddr f = v % 2 ^ f.width := by
  apply Nat.eq_of_testBit_eq
  intro i
  rw [testBit_BR, HW_RD_BW, if_pos rfl, testBit_insert, Nat.testBit_mod_two_pow]
  by_cases h1 : i < f.width
  · have h2 : f.shift + i < L.regBits := by omega
    simp [h1, h2]
  · simp [h1]

theorem HW_ADDR_inj (baseAddr a b : Nat) (ha : a < 2 ^ 32) (hb : b < 2 ^ 32)
    (h : HW_ADDR baseAddr a = HW_ADDR baseAddr b) : a = b := by
  unfold HW_ADDR at h
  omega

/-- Writing a field leaves every field that does not overlap it unchanged. -/
theorem BR_BW_frame (L : rcm_layout) (s : Mem) (baseAddr : Nat) (f g : rcm_field) (v : Nat)
    (h : f.disjoint g) :
    BR L (BW L s baseAddr f v) baseAddr g = BR L s baseAddr g := by
  apply Nat.eq_of_testBit_eq
  intro i
  rw [testBit_BR, testBit_BR, HW_RD_BW]
  by_cases ha : HW_ADDR baseAddr g.offset = HW_ADDR baseAddr f.offset
  · rw [if_pos ha, testBit_insert]
    have hr : (HW_RD L s baseAddr g).testBit (g.shift + i)
        = (decide (g.shift + i < L.regBits)
            && (s (HW_ADDR baseAddr f.offset)).testBit (g.shift + i)) := by
      simp [HW_RD, ha, Nat.testBit_mod_two_pow]
    rw [hr]
    by_cases h1 : i < g.width
    · have hd : ¬ (f.shift ≤ g.shift + i ∧ g.shift + i - f.shift < f.width) := by
        rcases h with ⟨h1, h2, h3⟩ | h | h
        · exact absurd (HW_ADDR_inj baseAddr _ _ h2 h1 ha).symm h3
        · omega
        · omega
      simp [hd]
    · simp [h1]
  · rw [if_neg ha]

theorem disjoint_symm (f g : rcm_field) (h : f.disjoint g) : g.disjoint f := by
  rcases h with ⟨h1, h2, h3⟩ | h | h
  · exact Or.inl ⟨h2, h1, fun e => h3 e.symm⟩
  · exact Or.inr (Or.inr h)
  · exact Or.inr (Or.inl h)

theorem filter_mode_val_lt (m : rcm_filter_run_wait_modes_t) : m.val < 4 := by
  cases m <;> decide

theorem boot_cfg_val_lt (k : rcm_boot_rom_config_t) : k.val < 4 := by
  cases k <;> decide

theorem boot_cfg_val_inj (j k : rcm_boot_rom_config_t) (h : j.val = k.val) : j = k := by
  cases j <;> cases k <;> first | rfl | exact absurd h (by decide)

theorem mod_two_pow_of_lt_four (v w : Nat) (hv : v < 4) (hw : 2 ≤ w) : v % 2 ^ w = v := by
  apply Nat.mod_eq_of_lt
  have : 2 ^ 2 ≤ 2 ^ w := Nat.pow_le_pow_right (by decide) hw
  omega

theorem mod_two_pow_of_lt_two (v w : Nat) (hv : v < 2) (hw : 1 ≤ w) : v % 2 ^ w = v := by
  apply Nat.mod_eq_of_lt
  have : 2 ^ 1 ≤ 2 ^ w := Nat.pow_le_pow_right (by decide) hw
  omega

/-- Clearing a field never makes another field non-zero. -/
theorem BR_BW_zero_of_zero (L : rcm_layout) (s : Mem) (baseAddr : Nat) (f g : rcm_field)
    (h : BR L s baseAddr g = 0) : BR L (BW L s baseAddr f 0) baseAddr g = 0 := by
  apply Nat.eq_of_testBit_eq
  intro i
  have hi := congrArg (fun n => Nat.testBit n i) h
  simp only [testBit_BR, Nat.zero_testBit] at hi
  rw [testBit_BR, HW_RD_BW, Nat.zero_testBit]
  by_cases ha : HW_ADDR baseAddr g.offset = HW_ADDR baseAddr f.offset
  · rw [if_pos ha, testBit_insert]
    have hr : (HW_RD L s baseAddr g).testBit (g.shift + i)
        = (decide (g.shift + i < L.regBits)
            && (s (HW_ADDR baseAddr f.offset)).testBit (g.shift + i)) := by
      simp [HW_RD, ha, Nat.testBit_mod_two_pow]
    rw [hr] at hi
    by_cases hd : f.shift ≤ g.shift + i ∧ g.shift + i - f.shift < f.width
    · simp [hd]
    · simpa [hd] using hi
  · rw [if_neg ha]
    exact hi

/-- Clearing a field makes it read zero. -/
theorem BR_BW_zero_self (L : rcm_layout) (s : Mem) (baseAddr : Nat) (f : rcm_field) :
    BR L (BW L s baseAddr f 0) baseAddr f = 0 := by
  apply Nat.eq_of_testBit_eq
  intro i
  rw [testBit_BR, HW_RD_BW, if_pos rfl, testBit_insert, Nat.zero_testBit]
  by_cases h1 : i < f.width
  · have hd : f.shift ≤ f.shift + i ∧ f.shift + i - f.shift < f.width := by omega
    rw [if_pos hd]
    simp
  · simp [h1]

theorem BR_clear_fold (L : rcm_layout) (baseAddr : Nat) (g : rcm_field)
    (l : List rcm_source_names_t) (s : Mem)
    (h : BR L s baseAddr g = 0 ∨ ∃ c ∈ l, L.SSRS c = g) :
    BR L (l.foldl (fun m c => BW L m baseAddr (L.SSRS c) 0) s) baseAddr g = 0 := by
  induction l generalizing s with
  | nil =>
    rcases h with h | ⟨c, hc, _⟩
    · exact h
    · cases hc
  | cons d l ih =>
    rw [List.foldl_cons]
    apply ih
    rcases h with h | ⟨c, hc, hg⟩
    · exact Or.inl (BR_BW_zero_of_zero L s baseAddr _ g h)
    · rcases List.mem_cons.mp hc with rfl | hc
      · rw [hg]
        exact Or.inl (BR_BW_zero_self L s baseAddr g)
      · exact Or.inr ⟨c, hc, hg⟩

/-! ## Round trips -/

/-- C1: for every register-block state and every run/wait filter mode `m`
(the reserved value included), `RCM_HAL_SetFilterRunWaitMode` followed by
`RCM_HAL_GetFilterRunWaitMode` returns `m`, on every layout whose RSTFLTSRW
field lies inside its register and is at least two bits wide. -/
theorem filterRunWaitMode_roundtrip (L : rcm_layout) (baseAddr : Nat) (s : Mem)
    (m : rcm_filter_run_wait_modes_t)
    (hfit : L.RPFC_RSTFLTSRW.fits L) (hw : 2 ≤ L.RPFC_RSTFLTSRW.width) :
    (RCM_HAL_GetFilterRunWaitMode L baseAddr
      (RCM_HAL_SetFilterRunWaitMode L baseAddr m s)).1 = m.val := by
  unfold RCM_HAL_GetFilterRunWaitMode RCM_HAL_SetFilterRunWaitMode
  show BR L (BW L s baseAddr L.RPFC_RSTFLTSRW m.val) baseAddr L.RPFC_RSTFLTSRW = m.val
  rw [BR_BW_same L s baseAddr _ _ hfit]
  exact mod_two_pow_of_lt_four _ _ (filter_mode_val_lt m) hw

theorem filterRunWaitMode_roundtrip_witness :
    sampleLayout.RPFC_RSTFLTSRW.fits sampleLayout ∧ 2 ≤ sampleLayout.RPFC_RSTFLTSRW.width ∧
    (RCM_HAL_GetFilterRunWaitMode sampleLayout 0x4007F000
      (RCM_HAL_SetFilterRunWaitMode sampleLayout 0x4007F000
        rcm_filter_run_wait_modes_t.kRcmFilterReserverd sampleMem)).1
      = rcm_filter_run_wait_modes_t.kRcmFilterReserverd.val :=
  ⟨by decide, by decide,
    filterRunWaitMode_roundtrip sampleLayout 0x4007F000 sampleMem
      rcm_filter_run_wait_modes_t.kRcmFilterReserverd (by decide) (by decide)⟩

/-- C2: for every register-block state and every 32-bit width `w`,
`RCM_HAL_SetFilterWidth` followed by `RCM_HAL_GetFilterWidth` returns `w`
modulo two to the bit width of the RSTFLTSEL field, hence `w` itself when `w`
is below that power; the setter is total, so no input is rejected.  The layout
is any one whose RSTFLTSEL field lies inside its register. -/
theorem filterWidth_roundtrip (L : rcm_layout) (baseAddr : Nat) (s : Mem) (w : Nat)
    (hfit : L.RPFW_RSTFLTSEL.fits L) (hw : w < 2 ^ 32) :
    (RCM_HAL_GetFilterWidth L baseAddr (RCM_HAL_SetFilterWidth L baseAddr w s)).1
        = w % 2 ^ L.RPFW_RSTFLTSEL.width
      ∧ (w < 2 ^ L.RPFW_RSTFLTSEL.width →
          (RCM_HAL_GetFilterWidth L baseAddr (RCM_HAL_SetFilterWidth L baseAddr w s)).1 = w) := by
  have key : (RCM_HAL_GetFilterWidth L baseAddr (RCM_HAL_SetFilterWidth L baseAddr w s)).1
      = w % 2 ^ L.RPFW_RSTFLTSEL.width := by
    show BR L (BW L s baseAddr L.RPFW_RSTFLTSEL (w % 2 ^ 32)) baseAddr L.RPFW_RSTFLTSEL % 2 ^ 32
      = w % 2 ^ L.RPFW_RSTFLTSEL.width
    rw [BR_BW_same L s baseAddr _ _ hfit, Nat.mod_eq_of_lt hw]
    exact Nat.mod_eq_of_lt (Nat.lt_of_le_of_lt (Nat.mod_le _ _) hw)
  refine ⟨key, fun h => ?_⟩
  rw [key, Nat.mod_eq_of_lt h]

theorem filterWidth_roundtrip_witness :
    sampleLayout.RPFW_RSTFLTSEL.fits sampleLayout ∧ 1000 < 2 ^ 32 ∧
    ((RCM_HAL_GetFilterWidth sampleLayout 0x4007F000
        (RCM_HAL_SetFilterWidth sampleLayout 0x4007F000 1000 sampleMem)).1
        = 1000 % 2 ^ sampleLayout.RPFW_RSTFLTSEL.width
      ∧ (1000 < 2 ^ sampleLayout.RPFW_RSTFLTSEL.width →
          (RCM_HAL_GetFilterWidth sampleLayout 0x4007F000
            (RCM_HAL_SetFilterWidth sampleLayout 0x4007F000 1000 sampleMem)).1 = 1000)) :=
  ⟨by decide, by decide,
    filterWidth_roundtrip sampleLayout 0x4007F000 sampleMem 1000 (by decide) (by decide)⟩

/-- C3: for every register-block state and every boot configuration `k`,
`RCM_HAL_SetForceBootRomSrc` followed by `RCM_HAL_GetForceBootRomSrc` returns
`k`, on every layout whose FORCEROM field lies inside its register and is at
least two bits wide. -/
theorem forceBootRomSrc_roundtrip (L : rcm_layout) (baseAddr : Nat) (s : Mem)
    (k : rcm_boot_rom_config_t)
    (hfit : L.FM_FORCEROM.fits L) (hw : 2 ≤ L.FM_FORCEROM.width) :
    (RCM_HAL_GetForceBootRomSrc L baseAddr
      (RCM_HAL_SetForceBootRomSrc L baseAddr k s)).1 = k.val := by
  show BR L (BW L s baseAddr L.FM_FORCEROM k.val) baseAddr L.FM_FORCEROM = k.val
  rw [BR_BW_same L s baseAddr _ _ hfit]
  exact mod_two_pow_of_lt_four _ _ (boot_cfg_val_lt k) hw

theorem forceBootRomSrc_roundtrip_witness :
    sampleLayout.FM_FORCEROM.fits sampleLayout ∧ 2 ≤ sampleLayout.FM_FORCEROM.width ∧
    (RCM_HAL_GetForceBootRomSrc sampleLayout 0x4007F000
      (RCM_HAL_SetForceBootRomSrc sampleLayout 0x4007F000
        rcm_boot_rom_config_t.kRcmBootRomFopt sampleMem)).1
      = rcm_boot_rom_config_t.kRcmBootRomFopt.val :=
  ⟨by decide, by decide,
    forceBootRomSrc_roundtrip sampleLayout 0x4007F000 sampleMem
      rcm_boot_rom_config_t.kRcmBootRomFopt (by decide) (by decide)⟩

/-- C4: for every register-block state, after `RCM_HAL_ClearBootRomSrc` the
getter `RCM_HAL_GetBootRomSrc` returns `kRcmBootRomBoth` (value 3) and no other
boot configuration, on every layout whose BOOTROM field lies inside its
register and is at least two bits wide. -/
theorem clearBootRomSrc_reads_both (L : rcm_layout) (baseAddr : Nat) (s : Mem)
    (hfit : L.MR_BOOTROM.fits L) (hw : 2 ≤ L.MR_BOOTROM.width) :
    (RCM_HAL_GetBootRomSrc L baseAddr (RCM_HAL_ClearBootRomSrc L baseAddr s)).1 = 3
      ∧ ∀ k : rcm_boot_rom_config_t,
          (RCM_HAL_GetBootRomSrc L baseAddr (RCM_HAL_ClearBootRomSrc L baseAddr s)).1 = k.val
            ↔ k = rcm_boot_rom_config_t.kRcmBootRomBoth := by
  have key : (RCM_HAL_GetBootRomSrc L baseAddr (RCM_HAL_ClearBootRomSrc L baseAddr s)).1
      = rcm_boot_rom_config_t.kRcmBootRomBoth.val := by
    show BR L (BW L s baseAddr L.MR_BOOTROM rcm_boot_rom_config_t.kRcmBootRomBoth.val)
      baseAddr L.MR_BOOTROM = rcm_boot_rom_config_t.kRcmBootRomBoth.val
    rw [BR_BW_same L s baseAddr _ _ hfit]
    exact mod_two_pow_of_lt_four _ _ (boot_cfg_val_lt _) hw
  refine ⟨key, fun k => ?_⟩
  rw [key]
  constructor
  · intro h
    exact (boot_cfg_val_inj _ _ h).symm
  · intro h
    rw [h]

theorem clearBootRomSrc_reads_both_witness :
    sampleLayout.MR_BOOTROM.fits sampleLayout ∧ 2 ≤ sampleLayout.MR_BOOTROM.width ∧
    ((RCM_HAL_GetBootRomSrc sampleLayout 0x4007F000
        (RCM_HAL_ClearBootRomSrc sampleLayout 0x4007F000 (fun _ => 0))).1 = 3
      ∧ ∀ k : rcm_boot_rom_config_t,
          (RCM_HAL_GetBootRomSrc sampleLayout 0x4007F000
            (RCM_HAL_ClearBootRomSrc sampleLayout 0x4007F000 (fun _ => 0))).1 = k.val
            ↔ k = rcm_boot_rom_config_t.kRcmBootRomBoth) :=
  ⟨by decide, by decide,
    clearBootRomSrc_reads_both sampleLayout 0x4007F000 (fun _ => 0) (by decide) (by decide)⟩

/-- C10: for every register-block state and every boolean `e`,
`RCM_HAL_SetFilterStopModeCmd` followed by `RCM_HAL_GetFilterStopModeCmd`
returns `e`, on every layout whose RSTFLTSS field lies inside its register and
is at least one bit wide. -/
theorem filterStopModeCmd_roundtrip (L : rcm_layout) (baseAddr : Nat) (s : Mem) (e : Bool)
    (hfit : L.RPFC_RSTFLTSS.fits L) (hw : 1 ≤ L.RPFC_RSTFLTSS.width) :
    (RCM_HAL_GetFilterStopModeCmd L baseAddr
      (RCM_HAL_SetFilterStopModeCmd L baseAddr e s)).1 = e := by
  show decide (BR L (BW L s baseAddr L.RPFC_RSTFLTSS (if e then 1 else 0)) baseAddr
    L.RPFC_RSTFLTSS ≠ 0) = e
  rw [BR_BW_same L s baseAddr _ _ hfit]
  cases e
  · rw [mod_two_pow_of_lt_two _ _ (by decide) hw]
    decide
  · rw [mod_two_pow_of_lt_two _ _ (by decide) hw]
    decide

theorem filterStopModeCmd_roundtrip_witness :
    sampleLayout.RPFC_RSTFLTSS.fits sampleLayout ∧ 1 ≤ sampleLayout.RPFC_RSTFLTSS.width ∧
    (RCM_HAL_GetFilterStopModeCmd sampleLayout 0x4007F000
      (RCM_HAL_SetFilterStopModeCmd sampleLayout 0x4007F000 false sampleMem)).1 = false :=
  ⟨by decide, by decide,
    filterStopModeCmd_roundtrip sampleLayout 0x4007F000 sampleMem false (by decide) (by decide)⟩

/-! ## Sticky latch -/

/-- C5: for every register-block state and every reset source `c` of the
target, after `RCM_HAL_ClearStickySrcStatus` the query
`RCM_HAL_GetStickySrcStatusCmd` for `c` returns false, whatever sticky bits
were set before (no reset event takes place between the two calls). -/
theorem clearSticky_all_false (L : rcm_layout) (f : rcm_features) (baseAddr : Nat) (s : Mem)
    (c : rcm_source_names_t) (hc : c ∈ rcm_sources f) :
    (RCM_HAL_GetStickySrcStatusCmd L baseAddr c
      (RCM_HAL_ClearStickySrcStatus L f baseAddr s)).1 = false := by
  show decide (BR L ((rcm_sources f).foldl (fun m c => BW L m baseAddr (L.SSRS c) 0) s)
    baseAddr (L.SSRS c) ≠ 0) = false
  rw [BR_clear_fold L baseAddr (L.SSRS c) (rcm_sources f) s (Or.inr ⟨c, hc, rfl⟩)]
  decide

theorem clearSticky_all_false_witness :
    rcm_source_names_t.kRcmPowerOn ∈ rcm_sources allFeatures ∧
    (RCM_HAL_GetStickySrcStatusCmd sampleLayout 0x4007F000 rcm_source_names_t.kRcmPowerOn
      (RCM_HAL_ClearStickySrcStatus sampleLayout allFeatures 0x4007F000 sampleMem)).1 = false :=
  ⟨by decide,
    clearSticky_all_false sampleLayout allFeatures 0x4007F000 sampleMem
      rcm_source_names_t.kRcmPowerOn (by decide)⟩

/-! ## Independence of the fields -/

/-- C6: the three reset-pin filter fields are independent: on every layout
where they occupy disjoint bits, each of the three setters (the width setter
for any width, out-of-range ones included) leaves the values returned by the
getters of the other two fields unchanged. -/
theorem filter_fields_independent (L : rcm_layout) (baseAddr : Nat) (s : Mem) (e : Bool)
    (m : rcm_filter_run_wait_modes_t) (w : Nat) (hsep : L.filterSeparate) :
    ((RCM_HAL_GetFilterRunWaitMode L baseAddr (RCM_HAL_SetFilterStopModeCmd L baseAddr e s)).1
        = (RCM_HAL_GetFilterRunWaitMode L baseAddr s).1
      ∧ (RCM_HAL_GetFilterWidth L baseAddr (RCM_HAL_SetFilterStopModeCmd L baseAddr e s)).1
        = (RCM_HAL_GetFilterWidth L baseAddr s).1)
    ∧ ((RCM_HAL_GetFilterStopModeCmd L baseAddr (RCM_HAL_SetFilterRunWaitMode L baseAddr m s)).1
        = (RCM_HAL_GetFilterStopModeCmd L baseAddr s).1
      ∧ (RCM_HAL_GetFilterWidth L baseAddr (RCM_HAL_SetFilterRunWaitMode L baseAddr m s)).1
        = (RCM_HAL_GetFilterWidth L baseAddr s).1)
    ∧ ((RCM_HAL_GetFilterStopModeCmd L baseAddr (RCM_HAL_SetFilterWidth L baseAddr w s)).1
        = (RCM_HAL_GetFilterStopModeCmd L baseAddr s).1
      ∧ (RCM_HAL_GetFilterRunWaitMode L baseAddr (RCM_HAL_SetFilterWidth L baseAddr w s)).1
        = (RCM_HAL_GetFilterRunWaitMode L baseAddr s).1) := by
  obtain ⟨h1, h2, h3⟩ := hsep
  simp only [RCM_HAL_GetFilterRunWaitMode, RCM_HAL_GetFilterWidth, RCM_HAL_GetFilterStopModeCmd,
    RCM_HAL_SetFilterStopModeCmd, RCM_HAL_SetFilterRunWaitMode, RCM_HAL_SetFilterWidth]
  simp only [BR_BW_frame L s baseAddr _ _ _ h1, BR_BW_frame L s baseAddr _ _ _ h2,
    BR_BW_frame L s baseAddr _ _ _ h3, BR_BW_frame L s baseAddr _ _ _ (disjoint_symm _ _ h1),
    BR_BW_frame L s baseAddr _ _ _ (disjoint_symm _ _ h2),
    BR_BW_frame L s baseAddr _ _ _ (disjoint_symm _ _ h3), and_self]

theorem filter_fields_independent_witness :
    sampleLayout.filterSeparate ∧
    (((RCM_HAL_GetFilterRunWaitMode sampleLayout 0x4007F000
          (RCM_HAL_SetFilterStopModeCmd sampleLayout 0x4007F000 false sampleMem)).1
        = (RCM_HAL_GetFilterRunWaitMode sampleLayout 0x4007F000 sampleMem).1
      ∧ (RCM_HAL_GetFilterWidth sampleLayout 0x4007F000
          (RCM_HAL_SetFilterStopModeCmd sampleLayout 0x4007F000 false sampleMem)).1
        = (RCM_HAL_GetFilterWidth sampleLayout 0x4007F000 sampleMem).1)
    ∧ ((RCM_HAL_GetFilterStopModeCmd sampleLayout 0x4007F000
          (RCM_HAL_SetFilterRunWaitMode sampleLayout 0x4007F000
            rcm_filter_run_wait_modes_t.kRcmFilterDisabled sampleMem)).1
        = (RCM_HAL_GetFilterStopModeCmd sampleLayout 0x4007F000 sampleMem).1
      ∧ (RCM_HAL_GetFilterWidth sampleLayout 0x4007F000
          (RCM_HAL_SetFilterRunWaitMode sampleLayout 0x4007F000
            rcm_filter_run_wait_modes_t.kRcmFilterDisabled sampleMem)).1
        = (RCM_HAL_GetFilterWidth sampleLayout 0x4007F000 sampleMem).1)
    ∧ ((RCM_HAL_GetFilterStopModeCmd sampleLayout 0x4007F000
          (RCM_HAL_SetFilterWidth sampleLayout 0x4007F000 4294967295 sampleMem)).1
        = (RCM_HAL_GetFilterStopModeCmd sampleLayout 0x4007F000 sampleMem).1
      ∧ (RCM_HAL_GetFilterRunWaitMode sampleLayout 0x4007F000
          (RCM_HAL_SetFilterWidth sampleLayout 0x4007F000 4294967295 sampleMem)).1
        = (RCM_HAL_GetFilterRunWaitMode sampleLayout 0x4007F000 sampleMem).1)) :=
  ⟨by decide,
    filter_fields_independent sampleLayout 0x4007F000 sampleMem false
      rcm_filter_run_wait_modes_t.kRcmFilterDisabled 4294967295 (by decide)⟩

/-- C7: the forced and the observed boot source are independent, and neither
touches the reset-pin filter: on every layout where the FORCEROM and BOOTROM
fields occupy bits disjoint from each other and from the three filter fields,
`RCM_HAL_SetForceBootRomSrc` leaves the value of `RCM_HAL_GetBootRomSrc`
unchanged, `RCM_HAL_ClearBootRomSrc` leaves the value of
`RCM_HAL_GetForceBootRomSrc` unchanged, and both leave the values of the three
filter getters unchanged. -/
theorem boot_fields_independent (L : rcm_layout) (baseAddr : Nat) (s : Mem)
    (k : rcm_boot_rom_config_t) (hsep : L.bootSeparate) :
    (RCM_HAL_GetBootRomSrc L baseAddr (RCM_HAL_SetForceBootRomSrc L baseAddr k s)).1
        = (RCM_HAL_GetBootRomSrc L baseAddr s).1
    ∧ (RCM_HAL_GetForceBootRomSrc L baseAddr (RCM_HAL_ClearBootRomSrc L baseAddr s)).1
        = (RCM_HAL_GetForceBootRomSrc L baseAddr s).1
    ∧ ((RCM_HAL_GetFilterStopModeCmd L baseAddr (RCM_HAL_SetForceBootRomSrc L baseAddr k s)).1
        = (RCM_HAL_GetFilterStopModeCmd L baseAddr s).1
      ∧ (RCM_HAL_GetFilterRunWaitMode L baseAddr (RCM_HAL_SetForceBootRomSrc L baseAddr k s)).1
        = (RCM_HAL_GetFilterRunWaitMode L baseAddr s).1
      ∧ (RCM_HAL_GetFilterWidth L baseAddr (RCM_HAL_SetForceBootRomSrc L baseAddr k s)).1
        = (RCM_HAL_GetFilterWidth L baseAddr s).1)
    ∧ ((RCM_HAL_GetFilterStopModeCmd L baseAddr (RCM_HAL_ClearBootRomSrc L baseAddr s)).1
        = (RCM_HAL_GetFilterStopModeCmd L baseAddr s).1
      ∧ (RCM_HAL_GetFilterRunWaitMode L baseAddr (RCM_HAL_ClearBootRomSrc L baseAddr s)).1
        = (RCM_HAL_GetFilterRunWaitMode L baseAddr s).1
      ∧ (RCM_HAL_GetFilterWidth L baseAddr (RCM_HAL_ClearBootRomSrc L baseAddr s)).1
        = (RCM_HAL_GetFilterWidth L baseAddr s).1) := by
  obtain ⟨h0, h1, h2, h3, h4, h5, h6⟩ := hsep
  simp only [RCM_HAL_GetFilterRunWaitMode, RCM_HAL_GetFilterWidth, RCM_HAL_GetFilterStopModeCmd,
    RCM_HAL_GetBootRomSrc, RCM_HAL_GetForceBootRomSrc, RCM_HAL_SetForceBootRomSrc,
    RCM_HAL_ClearBootRomSrc]
  simp only [BR_BW_frame L s baseAddr _ _ _ h0, BR_BW_frame L s baseAddr _ _ _ h1,
    BR_BW_frame L s baseAddr _ _ _ h2, BR_BW_frame L s baseAddr _ _ _ h3,
    BR_BW_frame L s baseAddr _ _ _ h4, BR_BW_frame L s baseAddr _ _ _ h5,
    BR_BW_frame L s baseAddr _ _ _ h6, BR_BW_frame L s baseAddr _ _ _ (disjoint_symm _ _ h0),
    and_self]

theorem boot_fields_independent_witness :
    sampleLayout.bootSeparate ∧
    ((RCM_HAL_GetBootRomSrc sampleLayout 0x4007F000
        (RCM_HAL_SetForceBootRomSrc sampleLayout 0x4007F000
          rcm_boot_rom_config_t.kRcmBootFlash sampleMem)).1
        = (RCM_HAL_GetBootRomSrc sampleLayout 0x4007F000 sampleMem).1
    ∧ (RCM_HAL_GetForceBootRomSrc sampleLayout 0x4007F000
        (RCM_HAL_ClearBootRomSrc sampleLayout 0x4007F000 sampleMem)).1
        = (RCM_HAL_GetForceBootRomSrc sampleLayout 0x4007F000 sampleMem).1
    ∧ ((RCM_HAL_GetFilterStopModeCmd sampleLayout 0x4007F000
          (RCM_HAL_SetForceBootRomSrc sampleLayout 0x4007F000
            rcm_boot_rom_config_t.kRcmBootFlash sampleMem)).1
        = (RCM_HAL_GetFilterStopModeCmd sampleLayout 0x4007F000 sampleMem).1
      ∧ (RCM_HAL_GetFilterRunWaitMode sampleLayout 0x4007F000
          (RCM_HAL_SetForceBootRomSrc sampleLayout 0x4007F000
            rcm_boot_rom_config_t.kRcmBootFlash sampleMem)).1
        = (RCM_HAL_GetFilterRunWaitMode sampleLayout 0x4007F000 sampleMem).1
      ∧ (RCM_HAL_GetFilterWidth sampleLayout 0x4007F000
          (RCM_HAL_SetForceBootRomSrc sampleLayout 0x4007F000
            rcm_boot_rom_config_t.kRcmBootFlash sampleMem)).1
        = (RCM_HAL_GetFilterWidth sampleLayout 0x4007F000 sampleMem).1)
    ∧ ((RCM_HAL_GetFilterStopModeCmd sampleLayout 0x4007F000
          (RCM_HAL_ClearBootRomSrc sampleLayout 0x4007F000 sampleMem)).1
        = (RCM_HAL_GetFilterStopModeCmd sampleLayout 0x4007F000 sampleMem).1
      ∧ (RCM_HAL_GetFilterRunWaitMode sampleLayout 0x4007F000
          (RCM_HAL_ClearBootRomSrc sampleLayout 0x4007F000 sampleMem)).1
        = (RCM_HAL_GetFilterRunWaitMode sampleLayout 0x4007F000 sampleMem).1
      ∧ (RCM_HAL_GetFilterWidth sampleLayout 0x4007F000
          (RCM_HAL_ClearBootRomSrc sampleLayout 0x4007F000 sampleMem)).1
        = (RCM_HAL_GetFilterWidth sampleLayout 0x4007F000 sampleMem).1)) :=
  ⟨by decide,
    boot_fields_independent sampleLayout 0x4007F000 sampleMem
      rcm_boot_rom_config_t.kRcmBootFlash (by decide)⟩

/-! ## Getters are pure reads -/

/-- C8: every getter is a pure read: it leaves the register-block state
unchanged, so calling it twice in succession returns the same value both
times. -/
theorem getters_pure (L : rcm_layout) (baseAddr : Nat) (s : Mem) :
    ((RCM_HAL_GetFilterStopModeCmd L baseAddr s).2 = s
      ∧ (RCM_HAL_GetFilterStopModeCmd L baseAddr (RCM_HAL_GetFilterStopModeCmd L baseAddr s).2).1
          = (RCM_HAL_GetFilterStopModeCmd L baseAddr s).1)
    ∧ ((RCM_HAL_GetFilterRunWaitMode L baseAddr s).2 = s
      ∧ (RCM_HAL_GetFilterRunWaitMode L baseAddr (RCM_HAL_GetFilterRunWaitMode L baseAddr s).2).1
          = (RCM_HAL_GetFilterRunWaitMode L baseAddr s).1)
    ∧ ((RCM_HAL_GetFilterWidth L baseAddr s).2 = s
      ∧ (RCM_HAL_GetFilterWidth L baseAddr (RCM_HAL_GetFilterWidth L baseAddr s).2).1
          = (RCM_HAL_GetFilterWidth L baseAddr s).1)
    ∧ ((RCM_HAL_GetEasyPortModeStatusCmd L baseAddr s).2 = s
      ∧ (RCM_HAL_GetEasyPortModeStatusCmd L baseAddr
            (RCM_HAL_GetEasyPortModeStatusCmd L baseAddr s).2).1
          = (RCM_HAL_GetEasyPortModeStatusCmd L baseAddr s).1)
    ∧ ((RCM_HAL_GetForceBootRomSrc L baseAddr s).2 = s
      ∧ (RCM_HAL_GetForceBootRomSrc L baseAddr (RCM_HAL_GetForceBootRomSrc L baseAddr s).2).1
          = (RCM_HAL_GetForceBootRomSrc L baseAddr s).1)
    ∧ ((RCM_HAL_GetBootRomSrc L baseAddr s).2 = s
      ∧ (RCM_HAL_GetBootRomSrc L baseAddr (RCM_HAL_GetBootRomSrc L baseAddr s).2).1
          = (RCM_HAL_GetBootRomSrc L baseAddr s).1) :=
  ⟨⟨rfl, rfl⟩, ⟨rfl, rfl⟩, ⟨rfl, rfl⟩, ⟨rfl, rfl⟩, ⟨rfl, rfl⟩, ⟨rfl, rfl⟩⟩

/-! ## The reset source enumeration -/

/-- C9: for every combination of the four feature flags, the enumerators of
`rcm_source_names_t` are pairwise distinct and take the values 0, 1, 2, ... in
declaration order; the nine ungated causes are always members; a gated cause
is a member exactly when its flag is set; and `kRcmSrcNameMax` equals the
number of causes, which is nine plus the number of enabled flags. -/
theorem rcm_source_names_numbering (f : rcm_features) :
    (rcm_source_names_decl f).Nodup
    ∧ (enumValues (rcm_source_names_decl f) 0).map Prod.snd
        = List.range (rcm_source_names_decl f).length
    ∧ (∀ c ∈ rcm_source_names_decl f,
        rcm_source_value f c = some ((rcm_source_names_decl f).indexOf c))
    ∧ (∀ c ∈ [rcm_source_names_t.kRcmWakeup, .kRcmLowVoltDetect, .kRcmWatchDog,
          .kRcmExternalPin, .kRcmPowerOn, .kRcmCoreLockup, .kRcmSoftware, .kRcmMdmAp,
          .kRcmStopModeAckErr], c ∈ rcm_sources f)
    ∧ (rcm_source_names_t.kRcmLossOfClk ∈ rcm_sources f ↔ f.FSL_FEATURE_RCM_HAS_LOC = true)
    ∧ (rcm_source_names_t.kRcmLossOfLock ∈ rcm_sources f ↔ f.FSL_FEATURE_RCM_HAS_LOL = true)
    ∧ (rcm_source_names_t.kRcmJtag ∈ rcm_sources f ↔ f.FSL_FEATURE_RCM_HAS_JTAG = true)
    ∧ (rcm_source_names_t.kRcmEzport ∈ rcm_sources f ↔ f.FSL_FEATURE_RCM_HAS_EZPORT = true)
    ∧ rcm_source_value f rcm_source_names_t.kRcmSrcNameMax = some (rcm_sources f).length
    ∧ (rcm_sources f).length
        = 9 + (if f.FSL_FEATURE_RCM_HAS_LOC then 1 else 0)
            + (if f.FSL_FEATURE_RCM_HAS_LOL then 1 else 0)
            + (if f.FSL_FEATURE_RCM_HAS_JTAG then 1 else 0)
            + (if f.FSL_FEATURE_RCM_HAS_EZPORT then 1 else 0) := by
  obtain ⟨a, b, c, d⟩ := f
  cases a <;> cases b <;> cases c <;> cases d <;> decide

end RCM
